import Mathlib

/-!
Shallow embedding of `pyvut` (`src/pyvut/api.py`): the shared pose relay
(`SharedPoseBuffer`), the in-process callback API (`UltimateTrackerAPI`),
and the isolated `TrackerService`.

Modelling conventions:
* `float64` cells are modelled as `ℚ` (every IEEE-754 double used here is a
  rational; store/load of a double is the identity, and the only conversions
  performed by the code are `int -> float` on write and Python `int()`
  truncation on read, modelled by `Int.cast` and `pyInt`).
* Byte strings (the identifier / MAC buffer) are `List ℕ` of byte values;
  a Python `str` is represented by its UTF-8 byte encoding (for valid UTF-8,
  `decode ∘ encode = id`, so string equality coincides with byte equality).
* `mp.Array('L', n)` cells (C unsigned long, 64-bit) are `ℕ` values kept
  below `2 ^ 64` by reducing modulo `2 ^ 64` on update (ctypes masks
  out-of-range stores).
* Wall-clock time (`time.time()`) is passed in explicitly as a `ℚ` argument.
-/

namespace Pyvut

def POSE_SLOTS : ℕ := 5
def POSE_FIELDS : ℕ := 11
def MAC_STR_LEN : ℕ := 64

/-- Modulus of a C `unsigned long` cell (`mp.Array('L', ...)`) on a 64-bit
platform; stores wrap modulo this value. -/
def ULONG_MOD : ℕ := 2 ^ 64

/-- Python `int()` applied to a float value: truncation toward zero. -/
def pyInt (q : ℚ) : ℤ := if 0 ≤ q then ⌊q⌋ else ⌈q⌉

/-- `TrackerPose` dataclass (`api.py` lines 120-132).  Vector payloads are
component tuples of doubles; `mac` is the UTF-8 byte encoding of the
identifier string. -/
structure TrackerPose where
  tracker_index : ℤ
  mac : List ℕ
  buttons : ℤ
  tracking_status : ℤ
  timestamp_ms : ℤ
  position : ℚ × ℚ × ℚ
  rotation : ℚ × ℚ × ℚ × ℚ
  acceleration : ℚ × ℚ × ℚ
  angular_velocity : ℚ × ℚ × ℚ
deriving DecidableEq, Repr

/-- One row of the 5×11 float64 array: field order
`[px, py, pz, rw, rx, ry, rz, timestamp_ms, buttons, tracking_status, valid_flag]`. -/
structure Row where
  px : ℚ
  py : ℚ
  pz : ℚ
  rw : ℚ
  rx : ℚ
  ry : ℚ
  rz : ℚ
  timestamp_ms : ℚ
  buttons : ℚ
  tracking_status : ℚ
  valid_flag : ℚ
deriving DecidableEq, Repr

/-- The all-zero row: fresh shared memory pages are zero-filled. -/
def Row.zero : Row :=
  ⟨0, 0, 0, 0, 0, 0, 0, 0, 0, 0, 0⟩

/-- State of a `SharedPoseBuffer`: the 5×11 double array, the flat
`MAC_STR_LEN * POSE_SLOTS` byte buffer, the per-slot write-time array
(`mp.Array('d', POSE_SLOTS)`) and sequence array (`mp.Array('L', POSE_SLOTS)`). -/
structure SharedPoseBuffer where
  array : Fin POSE_SLOTS → Row
  mac_buffer : List ℕ
  write_timestamps : Fin POSE_SLOTS → ℚ
  sequence_numbers : Fin POSE_SLOTS → ℕ

/-- Freshly created buffer (`SharedPoseBuffer.__init__`): shared memory and
`mp.Array` contents are zero-initialised. -/
def SharedPoseBuffer.init : SharedPoseBuffer where
  array := fun _ => Row.zero
  mac_buffer := List.replicate (MAC_STR_LEN * POSE_SLOTS) 0
  write_timestamps := fun _ => 0
  sequence_numbers := fun _ => 0

/-- Python slice assignment `l[off:off+len(r)] = r` on a flat buffer. -/
def writeSlice {α : Type} (l : List α) (off : ℕ) (r : List α) : List α :=
  l.take off ++ (r ++ l.drop (off + r.length))

/-- Python slice read `l[off:off+n]` on a flat buffer. -/
def sliceGet {α : Type} (l : List α) (off n : ℕ) : List α :=
  (l.drop off).take n

/-- The `Fin` slot index corresponding to an `ℤ` index that passed the
range check of `write_pose` / `read_pose`. -/
def slotIdx (tracker_index : ℤ)
    (h : ¬ (tracker_index < 0 ∨ (POSE_SLOTS : ℤ) ≤ tracker_index)) :
    Fin POSE_SLOTS :=
  ⟨tracker_index.toNat, by simp only [POSE_SLOTS] at h ⊢; omega⟩

/-- `SharedPoseBuffer.write_pose` (`api.py` lines 60-76).  `now` is the value
of `time.time()` at the call. -/
def write_pose (buf : SharedPoseBuffer) (tracker_index : ℤ) (pose : TrackerPose)
    (now : ℚ) : SharedPoseBuffer :=
  if h : tracker_index < 0 ∨ (POSE_SLOTS : ℤ) ≤ tracker_index then buf
  else
    let i : Fin POSE_SLOTS := slotIdx tracker_index h
    let row : Row :=
      { px := pose.position.1, py := pose.position.2.1, pz := pose.position.2.2
        rw := pose.rotation.1, rx := pose.rotation.2.1
        ry := pose.rotation.2.2.1, rz := pose.rotation.2.2.2
        timestamp_ms := (pose.timestamp_ms : ℚ)
        buttons := (pose.buttons : ℚ)
        tracking_status := (pose.tracking_status : ℚ)
        valid_flag := 1 }
    let raw_mac := pose.mac.take (MAC_STR_LEN - 1)
    let offset := i.val * MAC_STR_LEN
    let zeroed := writeSlice buf.mac_buffer offset (List.replicate MAC_STR_LEN 0)
    { array := Function.update buf.array i row
      mac_buffer := writeSlice zeroed offset raw_mac
      write_timestamps := Function.update buf.write_timestamps i now
      sequence_numbers :=
        Function.update buf.sequence_numbers i
          ((buf.sequence_numbers i + 1) % ULONG_MOD) }

/-- Snapshot returned by `read_pose`: the dict built at `api.py` lines 90-99.
`mac` holds the bytes before the first NUL (`raw_mac.split(b"\x00", 1)[0]`);
the returned string is their UTF-8 decoding. -/
structure SlotSnapshot where
  position : ℚ × ℚ × ℚ
  rotation : ℚ × ℚ × ℚ × ℚ
  timestamp_ms : ℤ
  buttons : ℤ
  tracking_status : ℤ
  mac : List ℕ
  write_time : ℚ
  sequence : ℕ
deriving DecidableEq, Repr

/-- `SharedPoseBuffer.read_pose` (`api.py` lines 78-99). -/
def read_pose (buf : SharedPoseBuffer) (tracker_index : ℤ) : Option SlotSnapshot :=
  if h : tracker_index < 0 ∨ (POSE_SLOTS : ℤ) ≤ tracker_index then none
  else
    let i : Fin POSE_SLOTS := slotIdx tracker_index h
    let offset := i.val * MAC_STR_LEN
    let row := buf.array i
    let raw_mac := sliceGet buf.mac_buffer offset MAC_STR_LEN
    if row.valid_flag < 1 / 2 then none
    else
      some
        { position := (row.px, row.py, row.pz)
          rotation := (row.rw, row.rx, row.ry, row.rz)
          timestamp_ms := pyInt row.timestamp_ms
          buttons := pyInt row.buttons
          tracking_status := pyInt row.tracking_status
          mac := raw_mac.takeWhile (fun b => b ≠ 0)
          write_time := buf.write_timestamps i
          sequence := buf.sequence_numbers i }

/-! ### In-process callback API (`UltimateTrackerAPI`)

Callbacks are drawn from an abstract type `κ` with decidable equality:
Python's `callback not in self._pose_callbacks` compares function objects,
for which `==` is identity.  A callback's runtime behaviour on an event is a
function `κ → TrackerPose → Except ε Unit`; `.error` models the callback
raising an exception. -/

/-- `UltimateTrackerAPI.add_pose_callback` (`api.py` lines 188-192). -/
def add_pose_callback {κ : Type} [DecidableEq κ] (callbacks : List κ) (cb : κ) :
    List κ :=
  if cb ∈ callbacks then callbacks else callbacks ++ [cb]

/-- `UltimateTrackerAPI.remove_pose_callback` (`api.py` lines 194-195). -/
def remove_pose_callback {κ : Type} [DecidableEq κ] (callbacks : List κ) (cb : κ) :
    List κ :=
  callbacks.filter (fun c => c ≠ cb)

/-- The callback dispatch loop of `UltimateTrackerAPI._handle_pose_event`
(`api.py` lines 231-235): every callback in the snapshot of the list is
invoked in order inside a try/except; an exception is logged and the loop
continues.  Returns the list of callbacks that received the event, in
invocation order, together with the logged exceptions. -/
def dispatch_callbacks {κ ε : Type} (behavior : κ → TrackerPose → Except ε Unit)
    (callbacks : List κ) (pose : TrackerPose) : List κ × List ε :=
  callbacks.foldl
    (fun acc cb =>
      match behavior cb pose with
      | .ok _ => (acc.1 ++ [cb], acc.2)
      | .error e => (acc.1 ++ [cb], acc.2 ++ [e]))
    ([], [])

/-- Mutable state of an `UltimateTrackerAPI` instance relevant to pose
events: the callback list and the latest-pose cache. -/
structure APIState (κ : Type) where
  pose_callbacks : List κ
  latest_pose : ℤ → Option TrackerPose

/-- `UltimateTrackerAPI._handle_pose_event` (`api.py` lines 215-235): update
the latest-pose cache, then dispatch to every registered callback.  Returns
the new state, the callbacks invoked, and the logged exceptions. -/
def handle_pose_event {κ ε : Type} (behavior : κ → TrackerPose → Except ε Unit)
    (st : APIState κ) (pose : TrackerPose) : APIState κ × List κ × List ε :=
  let st' : APIState κ :=
    { st with latest_pose :=
        Function.update st.latest_pose pose.tracker_index (some pose) }
  let r := dispatch_callbacks behavior st.pose_callbacks pose
  (st', r.1, r.2)

/-- Delivery of a stream of pose events through `_handle_pose_event`,
accumulating the full invocation log as `(callback, event)` pairs. -/
def process_events {κ ε : Type} (behavior : κ → TrackerPose → Except ε Unit)
    (st : APIState κ) (events : List TrackerPose) :
    APIState κ × List (κ × TrackerPose) :=
  events.foldl
    (fun acc e =>
      let r := handle_pose_event behavior acc.1 e
      (r.1, acc.2 ++ r.2.1.map (fun cb => (cb, e))))
    (st, [])

/-! ### Shared-memory lifecycle (`SharedPoseBuffer.close`, `TrackerService.stop`)

`multiprocessing.shared_memory.SharedMemory` semantics (CPython, POSIX):
`close()` releases the local mapping and is idempotent (each underlying
release is guarded by a has-it-still check); `unlink()` calls
`shm_unlink(name)`, which removes the name and raises `FileNotFoundError`
if the name no longer exists — a second `unlink()` therefore raises. -/

inductive PyError where
  | fileNotFound
deriving DecidableEq, Repr

/-- Observable state of one `SharedMemory` object: whether the local mapping
is still attached, and whether the named segment still exists in the OS. -/
structure SharedMemoryState where
  buf_attached : Bool
  linked : Bool
deriving DecidableEq, Repr

/-- State right after `SharedMemory(create=True, ...)`. -/
def SharedMemoryState.fresh : SharedMemoryState :=
  ⟨true, true⟩

/-- `SharedMemory.close()`: releases the local mapping; safe to repeat. -/
def shm_close (s : SharedMemoryState) : SharedMemoryState :=
  { s with buf_attached := false }

/-- `SharedMemory.unlink()`: removes the named segment; raises
`FileNotFoundError` when the name was already unlinked. -/
def shm_unlink (s : SharedMemoryState) : Except PyError SharedMemoryState :=
  if s.linked then Except.ok { s with linked := false }
  else Except.error PyError.fileNotFound

/-- `SharedPoseBuffer.close` (`api.py` lines 55-58): always closes the local
mapping, and additionally unlinks when this instance created the segment. -/
def buffer_close (owns_shm : Bool) (s : SharedMemoryState) :
    Except PyError SharedMemoryState :=
  let s1 := shm_close s
  if owns_shm then shm_unlink s1 else Except.ok s1

/-- Lifecycle state of a `TrackerService`: the `_running` guard flag and the
owning buffer's shared-memory state (stop-event signalling and process join
have no effect on this state and are elided). -/
structure ServiceLifecycle where
  running : Bool
  shm : SharedMemoryState
deriving DecidableEq, Repr

/-- State right after `TrackerService.__init__`. -/
def ServiceLifecycle.fresh : ServiceLifecycle :=
  ⟨true, SharedMemoryState.fresh⟩

/-- `TrackerService.stop` (`api.py` lines 293-301): early-returns when not
running; otherwise closes the owning buffer and clears the running flag. -/
def service_stop (s : ServiceLifecycle) : Except PyError ServiceLifecycle :=
  if s.running = false then Except.ok s
  else
    match buffer_close true s.shm with
    | Except.error e => Except.error e
    | Except.ok shm' => Except.ok { running := false, shm := shm' }

/-! ### `TrackerService.get_pose` -/

/-- Fields of a `TrackerService` relevant to `get_pose`: the attached relay
and the two observability fields, both `None` after construction. -/
structure TrackerServiceState where
  buffer : SharedPoseBuffer
  last_pose_age_ms : Option ℚ
  last_pose_sequence : Option ℕ

/-- `TrackerService.get_pose` (`api.py` lines 275-291).  `now` is the value
of `time.time()` at the call.  On a successful read the observability
fields are updated and a `TrackerPose` with zeroed acceleration and angular
velocity is returned; on a `None` read the state is untouched. -/
def get_pose (s : TrackerServiceState) (tracker_index : ℤ) (now : ℚ) :
    Option TrackerPose × TrackerServiceState :=
  match read_pose s.buffer tracker_index with
  | none => (none, s)
  | some data =>
      (some
        { tracker_index := tracker_index
          mac := data.mac
          buttons := data.buttons
          tracking_status := data.tracking_status
          timestamp_ms := data.timestamp_ms
          position := data.position
          rotation := data.rotation
          acceleration := (0, 0, 0)
          angular_velocity := (0, 0, 0) },
       { s with
          last_pose_age_ms := some ((now - data.write_time) * 1000)
          last_pose_sequence := some data.sequence })

/-! ### Helper lemmas -/

lemma pyInt_intCast (z : ℤ) : pyInt (z : ℚ) = z := by
  unfold pyInt
  split <;> simp

lemma length_writeSlice {α : Type} (l : List α) (off : ℕ) (r : List α)
    (h : off + r.length ≤ l.length) :
    (writeSlice l off r).length = l.length := by
  simp only [writeSlice, List.length_append, List.length_take, List.length_drop]
  omega

lemma drop_writeSlice {α : Type} (l : List α) (off : ℕ) (r : List α)
    (h : off ≤ l.length) :
    (writeSlice l off r).drop off = r ++ l.drop (off + r.length) := by
  unfold writeSlice
  have hlt : (l.take off).length = off := by
    rw [List.length_take]; omega
  rw [List.drop_left' hlt]

lemma sliceGet_write_two (l : List ℕ) (off : ℕ) (raw : List ℕ)
    (hoff : off + MAC_STR_LEN ≤ l.length) (hraw : raw.length ≤ MAC_STR_LEN) :
    sliceGet (writeSlice (writeSlice l off (List.replicate MAC_STR_LEN 0)) off raw)
        off MAC_STR_LEN
      = raw ++ List.replicate (MAC_STR_LEN - raw.length) 0 := by
  have hz : (List.replicate MAC_STR_LEN (0 : ℕ)).length = MAC_STR_LEN :=
    List.length_replicate _ _
  have h1 : (writeSlice l off (List.replicate MAC_STR_LEN 0)).length = l.length := by
    apply length_writeSlice; rw [hz]; exact hoff
  have hd1 : (writeSlice l off (List.replicate MAC_STR_LEN 0)).drop off
      = List.replicate MAC_STR_LEN 0 ++ l.drop (off + MAC_STR_LEN) := by
    rw [drop_writeSlice _ _ _ (by omega), hz]
  unfold sliceGet
  rw [drop_writeSlice _ _ _ (by omega)]
  have hdd : (writeSlice l off (List.replicate MAC_STR_LEN 0)).drop (off + raw.length)
      = List.replicate (MAC_STR_LEN - raw.length) 0 ++ l.drop (off + MAC_STR_LEN) := by
    have : (writeSlice l off (List.replicate MAC_STR_LEN 0)).drop (off + raw.length)
        = ((writeSlice l off (List.replicate MAC_STR_LEN 0)).drop off).drop raw.length := by
      rw [List.drop_drop]
    rw [this, hd1, List.drop_append_eq_append_drop, List.drop_replicate, hz]
    have hz0 : raw.length - MAC_STR_LEN = 0 := by omega
    rw [hz0, List.drop_zero]
  rw [hdd, ← List.append_assoc]
  apply List.take_left'
  simp only [List.length_append, List.length_replicate]
  omega

lemma sliceGet_writeSlice_of_disjoint {α : Type} (l : List α) (off : ℕ) (r : List α)
    (off2 n : ℕ) (hl : off + r.length ≤ l.length)
    (hdisj : off2 + n ≤ off ∨ off + r.length ≤ off2) :
    sliceGet (writeSlice l off r) off2 n = sliceGet l off2 n := by
  have hofflen : (l.take off).length = off := by
    rw [List.length_take]; omega
  unfold sliceGet writeSlice
  rcases hdisj with hA | hB
  · -- the read region lies strictly before the written region
    rw [List.drop_append_eq_append_drop, hofflen]
    have h0 : off2 - off = 0 := by omega
    rw [h0, List.drop_zero, List.take_append_eq_append_take]
    have hlen2 : ((l.take off).drop off2).length = off - off2 := by
      rw [List.length_drop, hofflen]
    have h0' : n - ((l.take off).drop off2).length = 0 := by omega
    rw [h0', List.take_zero, List.append_nil, List.drop_take]
    rw [List.take_take]
    have : min n (off - off2) = n := by omega
    rw [this]
  · -- the read region lies entirely after the written region
    rw [List.drop_append_eq_append_drop, hofflen]
    have hnil : (l.take off).drop off2 = [] :=
      List.drop_eq_nil_of_le (by omega)
    rw [hnil, List.nil_append, List.drop_append_eq_append_drop]
    have hnil2 : r.drop (off2 - off) = [] :=
      List.drop_eq_nil_of_le (by omega)
    rw [hnil2, List.nil_append, List.drop_drop]
    have : off + r.length + (off2 - off - r.length) = off2 := by omega
    rw [this]

lemma takeWhile_append_all {α : Type} (p : α → Bool) (l1 l2 : List α)
    (h : ∀ x ∈ l1, p x) :
    (l1 ++ l2).takeWhile p = l1 ++ l2.takeWhile p := by
  induction l1 with
  | nil => simp
  | cons a t ih =>
      have ha : p a = true := h a (by simp)
      have ht : ∀ x ∈ t, p x = true := fun x hx => h x (by simp [hx])
      simp [List.takeWhile_cons, ha, ih ht]

lemma takeWhile_ne_zero_replicate (n : ℕ) :
    (List.replicate n (0 : ℕ)).takeWhile (fun b => b ≠ 0) = [] := by
  cases n with
  | zero => simp
  | succ m => simp [List.replicate_succ, List.takeWhile_cons]

lemma coe_inrange (jf : Fin POSE_SLOTS) :
    ¬ ((jf.val : ℤ) < 0 ∨ (POSE_SLOTS : ℤ) ≤ (jf.val : ℤ)) := by
  have hlt := jf.isLt
  simp only [POSE_SLOTS] at hlt ⊢
  omega

lemma slotIdx_coe (jf : Fin POSE_SLOTS)
    (h : ¬ ((jf.val : ℤ) < 0 ∨ (POSE_SLOTS : ℤ) ≤ (jf.val : ℤ))) :
    slotIdx (jf.val : ℤ) h = jf := by
  apply Fin.ext
  simp [slotIdx]

lemma read_pose_isSome_iff (buf : SharedPoseBuffer) (i : ℤ)
    (h : ¬ (i < 0 ∨ (POSE_SLOTS : ℤ) ≤ i)) :
    (read_pose buf i).isSome = true
      ↔ ¬ ((buf.array (slotIdx i h)).valid_flag < 1 / 2) := by
  simp only [read_pose, dif_neg h]
  split
  · rename_i hv
    simp only [Option.isSome_none, Bool.false_eq_true, false_iff, not_not]
    exact hv
  · rename_i hv
    simp only [Option.isSome_some, true_iff]
    exact hv

/-- Concrete pose used by the witness theorems, taken from the scenario in
the spec (position `(1,2,3)`, rotation `(1,0,0,0)`, buttons `0x10`,
tracking status `2`, capture time `1000` ms). -/
def samplePose : TrackerPose where
  tracker_index := 2
  mac := [65, 65, 58, 66, 66]
  buttons := 16
  tracking_status := 2
  timestamp_ms := 1000
  position := (1, 2, 3)
  rotation := (1, 0, 0, 0)
  acceleration := (0, 0, 0)
  angular_velocity := (0, 0, 0)

/-- Slot 0 as a `Fin POSE_SLOTS` value, for concrete instantiations. -/
def slot0 : Fin POSE_SLOTS := ⟨0, by decide⟩

/-- Slot 1 as a `Fin POSE_SLOTS` value, for concrete instantiations. -/
def slot1 : Fin POSE_SLOTS := ⟨1, by decide⟩

/-- Slot 3 as a `Fin POSE_SLOTS` value, for concrete instantiations. -/
def slot3 : Fin POSE_SLOTS := ⟨3, by decide⟩

/-! ### Claims -/

/-- C1: for every valid slot index `i` in `[0,5)` and every pose, after
`write(i, pose)` a `read(i)` with no intervening write returns a snapshot
whose position, rotation, buttons, tracking_status and timestamp_ms equal
the values written (acceleration and angular velocity are not relayed —
indeed `SlotSnapshot` has no such fields). -/
theorem C1_write_then_read (buf : SharedPoseBuffer) (pose : TrackerPose)
    (now : ℚ) (i : ℤ) (h1 : 0 ≤ i) (h2 : i < (POSE_SLOTS : ℤ)) :
    ∃ snap, read_pose (write_pose buf i pose now) i = some snap ∧
      snap.position = pose.position ∧ snap.rotation = pose.rotation ∧
      snap.buttons = pose.buttons ∧ snap.tracking_status = pose.tracking_status ∧
      snap.timestamp_ms = pose.timestamp_ms := by
  have hcond : ¬ (i < 0 ∨ (POSE_SLOTS : ℤ) ≤ i) := by
    push_neg
    exact ⟨by omega, h2⟩
  simp only [write_pose, read_pose, dif_neg hcond]
  simp only [Function.update_same]
  rw [if_neg (by norm_num)]
  refine ⟨_, rfl, ?_, ?_, ?_, ?_, ?_⟩
  · simp
  · simp
  · exact pyInt_intCast _
  · exact pyInt_intCast _
  · exact pyInt_intCast _

/-- Witness for C1 at slot 2 with the spec's sample pose. -/
theorem C1_witness :
    ∃ snap, read_pose (write_pose SharedPoseBuffer.init 2 samplePose 100) 2 = some snap ∧
      snap.position = samplePose.position ∧ snap.rotation = samplePose.rotation ∧
      snap.buttons = samplePose.buttons ∧
      snap.tracking_status = samplePose.tracking_status ∧
      snap.timestamp_ms = samplePose.timestamp_ms :=
  C1_write_then_read SharedPoseBuffer.init samplePose 100 2 (by decide) (by decide)

/-- C2: for every `tracker_index` outside `[0,5)` (negative included),
`write` is a no-op changing no relay state and `read` returns no value;
neither raises. -/
theorem C2_out_of_range_noop (buf : SharedPoseBuffer) (pose : TrackerPose)
    (now : ℚ) (i : ℤ) (h : i < 0 ∨ (POSE_SLOTS : ℤ) ≤ i) :
    write_pose buf i pose now = buf ∧ read_pose buf i = none := by
  constructor
  · rw [write_pose, dif_pos h]
  · rw [read_pose, dif_pos h]

/-- Witness for C2 at the out-of-range indices `-1` and `5`. -/
theorem C2_witness :
    (write_pose SharedPoseBuffer.init (-1) samplePose 0 = SharedPoseBuffer.init ∧
      read_pose SharedPoseBuffer.init (-1) = none) ∧
    (write_pose SharedPoseBuffer.init 5 samplePose 0 = SharedPoseBuffer.init ∧
      read_pose SharedPoseBuffer.init 5 = none) :=
  ⟨C2_out_of_range_noop _ _ _ (-1) (by decide),
   C2_out_of_range_noop _ _ _ 5 (by decide)⟩

/-- C3: each `write(i, ...)` increments slot `i`'s sequence counter by
exactly 1 modulo the unsigned-long wraparound (starting from 0 at creation,
so the first write yields sequence 1 because `(0 + 1) % 2^64 = 1`), the
sequence observed by `read(i)` equals that strictly increased counter, and
two reads of slot `i` with no intervening write return equal sequence
values. -/
theorem C3_sequence_counter (buf : SharedPoseBuffer) (pose : TrackerPose)
    (now : ℚ) (jf : Fin POSE_SLOTS) :
    SharedPoseBuffer.init.sequence_numbers jf = 0 ∧
    (write_pose buf (jf.val : ℤ) pose now).sequence_numbers jf
      = (buf.sequence_numbers jf + 1) % ULONG_MOD ∧
    (∃ snap, read_pose (write_pose buf (jf.val : ℤ) pose now) (jf.val : ℤ)
        = some snap ∧ snap.sequence = (buf.sequence_numbers jf + 1) % ULONG_MOD) ∧
    (∀ s1 s2, read_pose buf (jf.val : ℤ) = some s1 →
      read_pose buf (jf.val : ℤ) = some s2 → s1.sequence = s2.sequence) := by
  have hcond := coe_inrange jf
  refine ⟨rfl, ?_, ?_, ?_⟩
  · simp only [write_pose, dif_neg hcond, slotIdx_coe, Function.update_same]
  · simp only [write_pose, read_pose, dif_neg hcond, slotIdx_coe,
      Function.update_same]
    rw [if_neg (by norm_num)]
    exact ⟨_, rfl, rfl⟩
  · intro s1 s2 hs1 hs2
    rw [hs1] at hs2
    injection hs2 with hs
    rw [hs]

/-- Witness for C3 at slot 0 on the freshly created relay. -/
theorem C3_witness :
    SharedPoseBuffer.init.sequence_numbers slot0 = 0 ∧
    (write_pose SharedPoseBuffer.init (slot0.val : ℤ) samplePose 7
        ).sequence_numbers slot0
      = (SharedPoseBuffer.init.sequence_numbers slot0 + 1) % ULONG_MOD ∧
    (∃ snap, read_pose
        (write_pose SharedPoseBuffer.init (slot0.val : ℤ) samplePose 7)
        (slot0.val : ℤ) = some snap ∧
      snap.sequence = (SharedPoseBuffer.init.sequence_numbers slot0 + 1) % ULONG_MOD) ∧
    (∀ s1 s2, read_pose SharedPoseBuffer.init (slot0.val : ℤ) = some s1 →
      read_pose SharedPoseBuffer.init (slot0.val : ℤ) = some s2 →
      s1.sequence = s2.sequence) :=
  C3_sequence_counter SharedPoseBuffer.init samplePose 7 slot0

/-- C4: a slot's validity flag is 0 (and `read` returns no value) until the
first write to it; any write to the slot sets the flag to 1 and makes reads
return a value; writes to other slots leave the flag untouched; and no
write operation ever clears a readable slot back to the no-data state. -/
theorem C4_validity_flag (buf : SharedPoseBuffer) (pose pose2 : TrackerPose)
    (now now2 : ℚ) (jf : Fin POSE_SLOTS) (j : ℤ) :
    (SharedPoseBuffer.init.array jf).valid_flag = 0 ∧
    read_pose SharedPoseBuffer.init (jf.val : ℤ) = none ∧
    ((write_pose buf (jf.val : ℤ) pose now).array jf).valid_flag = 1 ∧
    (read_pose (write_pose buf (jf.val : ℤ) pose now) (jf.val : ℤ)).isSome = true ∧
    (j ≠ (jf.val : ℤ) →
      ((write_pose buf j pose2 now2).array jf).valid_flag
        = (buf.array jf).valid_flag) ∧
    ((read_pose buf (jf.val : ℤ)).isSome = true →
      (read_pose (write_pose buf j pose2 now2) (jf.val : ℤ)).isSome = true) := by
  have hcond := coe_inrange jf
  have hflag : ((write_pose buf (jf.val : ℤ) pose now).array jf).valid_flag = 1 := by
    simp only [write_pose, dif_neg hcond, slotIdx_coe, Function.update_same]
  refine ⟨rfl, ?_, hflag, ?_, ?_, ?_⟩
  · simp only [read_pose, dif_neg hcond]
    rw [if_pos (by norm_num [SharedPoseBuffer.init, Row.zero])]
  · rw [read_pose_isSome_iff _ _ hcond, slotIdx_coe, hflag]
    norm_num
  · intro hne
    by_cases hj : j < 0 ∨ (POSE_SLOTS : ℤ) ≤ j
    · rw [write_pose, dif_pos hj]
    · simp only [write_pose, dif_neg hj]
      rw [Function.update_noteq]
      intro heq
      apply hne
      rcases not_or.mp hj with ⟨hj1, _⟩
      have hval : jf.val = j.toNat := by
        rw [heq]
        simp [slotIdx]
      omega
  · intro hsome
    rw [read_pose_isSome_iff _ _ hcond, slotIdx_coe] at hsome
    rw [read_pose_isSome_iff _ _ hcond, slotIdx_coe]
    by_cases hj : j < 0 ∨ (POSE_SLOTS : ℤ) ≤ j
    · rw [write_pose, dif_pos hj]
      exact hsome
    · simp only [write_pose, dif_neg hj]
      by_cases heq : jf = slotIdx j hj
      · rw [heq, Function.update_same]
        norm_num
      · rw [Function.update_noteq heq]
        exact hsome

/-- Witness for C4 at slot 1, with a second write to slot 3. -/
theorem C4_witness :
    (SharedPoseBuffer.init.array slot1).valid_flag = 0 ∧
    read_pose SharedPoseBuffer.init (slot1.val : ℤ) = none ∧
    ((write_pose SharedPoseBuffer.init (slot1.val : ℤ) samplePose 7
        ).array slot1).valid_flag = 1 ∧
    (read_pose
        (write_pose SharedPoseBuffer.init (slot1.val : ℤ) samplePose 7)
        (slot1.val : ℤ)).isSome = true ∧
    ((3 : ℤ) ≠ (slot1.val : ℤ) →
      ((write_pose SharedPoseBuffer.init (3 : ℤ) samplePose 8).array slot1).valid_flag
        = (SharedPoseBuffer.init.array slot1).valid_flag) ∧
    ((read_pose SharedPoseBuffer.init (slot1.val : ℤ)).isSome = true →
      (read_pose (write_pose SharedPoseBuffer.init (3 : ℤ) samplePose 8)
        (slot1.val : ℤ)).isSome = true) :=
  C4_validity_flag SharedPoseBuffer.init samplePose samplePose 7 8 slot1 3

/-- C5: after a write, the slot's 64-byte identifier region holds the first
63 bytes of the identifier followed by NUL padding (the buffer is
zero-filled before the copy, so no byte of a previous identifier survives);
and for an identifier of at most 63 bytes containing no NUL byte, `read`
returns exactly the identifier written. -/
theorem C5_identifier_bytes (buf : SharedPoseBuffer) (pose : TrackerPose)
    (now : ℚ) (jf : Fin POSE_SLOTS)
    (hlen : buf.mac_buffer.length = MAC_STR_LEN * POSE_SLOTS) :
    sliceGet (write_pose buf (jf.val : ℤ) pose now).mac_buffer
        (jf.val * MAC_STR_LEN) MAC_STR_LEN
      = pose.mac.take (MAC_STR_LEN - 1)
        ++ List.replicate (MAC_STR_LEN - (pose.mac.take (MAC_STR_LEN - 1)).length) 0 ∧
    ((pose.mac.length ≤ MAC_STR_LEN - 1 ∧ 0 ∉ pose.mac) →
      ∃ snap, read_pose (write_pose buf (jf.val : ℤ) pose now) (jf.val : ℤ)
          = some snap ∧ snap.mac = pose.mac) := by
  have hcond := coe_inrange jf
  have hjlt := jf.isLt
  simp only [POSE_SLOTS] at hjlt
  have hreg : sliceGet (writeSlice (writeSlice buf.mac_buffer (jf.val * MAC_STR_LEN)
        (List.replicate MAC_STR_LEN 0)) (jf.val * MAC_STR_LEN)
        (pose.mac.take (MAC_STR_LEN - 1))) (jf.val * MAC_STR_LEN) MAC_STR_LEN
      = pose.mac.take (MAC_STR_LEN - 1)
        ++ List.replicate (MAC_STR_LEN - (pose.mac.take (MAC_STR_LEN - 1)).length) 0 := by
    apply sliceGet_write_two
    · rw [hlen]
      simp only [MAC_STR_LEN, POSE_SLOTS]
      omega
    · simp only [List.length_take, MAC_STR_LEN]
      omega
  constructor
  · simp only [write_pose, dif_neg hcond, slotIdx_coe]
    exact hreg
  · rintro ⟨hshort, hnz⟩
    simp only [write_pose, read_pose, dif_neg hcond, slotIdx_coe,
      Function.update_same]
    rw [if_neg (by norm_num)]
    refine ⟨_, rfl, ?_⟩
    rw [hreg]
    have htake : pose.mac.take (MAC_STR_LEN - 1) = pose.mac :=
      List.take_of_length_le hshort
    rw [htake]
    rw [takeWhile_append_all]
    · rw [takeWhile_ne_zero_replicate, List.append_nil]
    · intro x hx
      simp only [ne_eq, decide_eq_true_eq]
      intro h0
      exact hnz (h0 ▸ hx)

set_option maxRecDepth 4000 in
/-- Witness for C5 at slot 3 with the sample pose (5-byte NUL-free
identifier). -/
theorem C5_witness :
    sliceGet (write_pose SharedPoseBuffer.init (slot3.val : ℤ) samplePose 9).mac_buffer
        (slot3.val * MAC_STR_LEN) MAC_STR_LEN
      = samplePose.mac.take (MAC_STR_LEN - 1)
        ++ List.replicate (MAC_STR_LEN - (samplePose.mac.take (MAC_STR_LEN - 1)).length) 0 ∧
    ((samplePose.mac.length ≤ MAC_STR_LEN - 1 ∧ 0 ∉ samplePose.mac) →
      ∃ snap, read_pose (write_pose SharedPoseBuffer.init (slot3.val : ℤ) samplePose 9)
          (slot3.val : ℤ) = some snap ∧ snap.mac = samplePose.mac) :=
  C5_identifier_bytes SharedPoseBuffer.init samplePose 9 slot3 (by decide)

/-- C9: a write to a valid slot `i` leaves every other slot `j ≠ i`
completely unchanged: its 11-field row, its 64-byte identifier buffer
region, its last-write time and its sequence counter. -/
theorem C9_write_frame (buf : SharedPoseBuffer) (pose : TrackerPose) (now : ℚ)
    (i : ℤ) (h1 : 0 ≤ i) (h2 : i < (POSE_SLOTS : ℤ)) (jf : Fin POSE_SLOTS)
    (hne : (jf.val : ℤ) ≠ i)
    (hlen : buf.mac_buffer.length = MAC_STR_LEN * POSE_SLOTS) :
    (write_pose buf i pose now).array jf = buf.array jf ∧
    sliceGet (write_pose buf i pose now).mac_buffer
        (jf.val * MAC_STR_LEN) MAC_STR_LEN
      = sliceGet buf.mac_buffer (jf.val * MAC_STR_LEN) MAC_STR_LEN ∧
    (write_pose buf i pose now).write_timestamps jf = buf.write_timestamps jf ∧
    (write_pose buf i pose now).sequence_numbers jf = buf.sequence_numbers jf := by
  have hcond : ¬ (i < 0 ∨ (POSE_SLOTS : ℤ) ≤ i) := by omega
  have hilt : i.toNat < 5 := by
    simp only [POSE_SLOTS] at h2
    omega
  have hjlt : jf.val < 5 := by
    have := jf.isLt
    simp only [POSE_SLOTS] at this
    exact this
  have hjne : jf.val ≠ i.toNat := by omega
  have hne' : jf ≠ slotIdx i hcond :=
    Fin.ne_of_val_ne (by simpa [slotIdx] using hjne)
  have hrawlen : (pose.mac.take (MAC_STR_LEN - 1)).length ≤ MAC_STR_LEN - 1 := by
    simp only [List.length_take, MAC_STR_LEN]
    omega
  have hinner : sliceGet (writeSlice buf.mac_buffer (i.toNat * MAC_STR_LEN)
        (List.replicate MAC_STR_LEN 0)) (jf.val * MAC_STR_LEN) MAC_STR_LEN
      = sliceGet buf.mac_buffer (jf.val * MAC_STR_LEN) MAC_STR_LEN := by
    apply sliceGet_writeSlice_of_disjoint
    · rw [List.length_replicate, hlen]
      simp only [MAC_STR_LEN, POSE_SLOTS]
      omega
    · rw [List.length_replicate]
      simp only [MAC_STR_LEN]
      rcases Nat.lt_or_ge jf.val i.toNat with hlt | hge
      · left; omega
      · right; omega
  have hinnerlen : (writeSlice buf.mac_buffer (i.toNat * MAC_STR_LEN)
        (List.replicate MAC_STR_LEN 0)).length = buf.mac_buffer.length := by
    apply length_writeSlice
    rw [List.length_replicate, hlen]
    simp only [MAC_STR_LEN, POSE_SLOTS]
    omega
  have houter : sliceGet (writeSlice (writeSlice buf.mac_buffer
        (i.toNat * MAC_STR_LEN) (List.replicate MAC_STR_LEN 0))
        (i.toNat * MAC_STR_LEN) (pose.mac.take (MAC_STR_LEN - 1)))
        (jf.val * MAC_STR_LEN) MAC_STR_LEN
      = sliceGet (writeSlice buf.mac_buffer (i.toNat * MAC_STR_LEN)
        (List.replicate MAC_STR_LEN 0)) (jf.val * MAC_STR_LEN) MAC_STR_LEN := by
    apply sliceGet_writeSlice_of_disjoint
    · rw [hinnerlen, hlen]
      simp only [MAC_STR_LEN, POSE_SLOTS] at hrawlen ⊢
      omega
    · simp only [MAC_STR_LEN] at hrawlen ⊢
      rcases Nat.lt_or_ge jf.val i.toNat with hlt | hge
      · left; omega
      · right; omega
  refine ⟨?_, ?_, ?_, ?_⟩
  · simp only [write_pose, dif_neg hcond]
    exact Function.update_noteq hne' _ _
  · simp only [write_pose, dif_neg hcond, slotIdx]
    rw [houter, hinner]
  · simp only [write_pose, dif_neg hcond]
    exact Function.update_noteq hne' _ _
  · simp only [write_pose, dif_neg hcond]
    exact Function.update_noteq hne' _ _

set_option maxRecDepth 4000 in
/-- Witness for C9: a write to slot 2 leaves slot 0 untouched. -/
theorem C9_witness :
    (write_pose SharedPoseBuffer.init 2 samplePose 4).array slot0
      = SharedPoseBuffer.init.array slot0 ∧
    sliceGet (write_pose SharedPoseBuffer.init 2 samplePose 4).mac_buffer
        (slot0.val * MAC_STR_LEN) MAC_STR_LEN
      = sliceGet SharedPoseBuffer.init.mac_buffer (slot0.val * MAC_STR_LEN) MAC_STR_LEN ∧
    (write_pose SharedPoseBuffer.init 2 samplePose 4).write_timestamps slot0
      = SharedPoseBuffer.init.write_timestamps slot0 ∧
    (write_pose SharedPoseBuffer.init 2 samplePose 4).sequence_numbers slot0
      = SharedPoseBuffer.init.sequence_numbers slot0 :=
  C9_write_frame SharedPoseBuffer.init samplePose 4 2 (by decide) (by decide) slot0
    (by decide) (by decide)

lemma dispatch_callbacks_fold {κ ε : Type}
    (behavior : κ → TrackerPose → Except ε Unit) (pose : TrackerPose) :
    ∀ (callbacks : List κ) (acc : List κ × List ε),
      (callbacks.foldl
        (fun acc cb =>
          match behavior cb pose with
          | .ok _ => (acc.1 ++ [cb], acc.2)
          | .error e => (acc.1 ++ [cb], acc.2 ++ [e])) acc).1
        = acc.1 ++ callbacks := by
  intro callbacks
  induction callbacks with
  | nil => intro acc; simp
  | cons c cs ih =>
      intro acc
      rw [List.foldl_cons, ih]
      cases hb : behavior c pose <;> simp [hb]

lemma dispatch_callbacks_fst {κ ε : Type}
    (behavior : κ → TrackerPose → Except ε Unit) (callbacks : List κ)
    (pose : TrackerPose) :
    (dispatch_callbacks behavior callbacks pose).1 = callbacks := by
  unfold dispatch_callbacks
  rw [dispatch_callbacks_fold]
  simp

lemma process_events_fold {κ ε : Type}
    (behavior : κ → TrackerPose → Except ε Unit) :
    ∀ (events : List TrackerPose) (st : APIState κ) (log : List (κ × TrackerPose)),
      (events.foldl
        (fun acc e =>
          let r := handle_pose_event behavior acc.1 e
          (r.1, acc.2 ++ r.2.1.map (fun cb => (cb, e)))) (st, log)).2
        = log ++ events.flatMap (fun e => st.pose_callbacks.map (fun cb => (cb, e))) := by
  intro events
  induction events with
  | nil => intro st log; simp
  | cons e es ih =>
      intro st log
      rw [List.foldl_cons]
      show (es.foldl _ ((handle_pose_event behavior st e).1,
          log ++ (handle_pose_event behavior st e).2.1.map (fun cb => (cb, e)))).2 = _
      rw [ih]
      have hcbs : (handle_pose_event behavior st e).1.pose_callbacks
          = st.pose_callbacks := rfl
      have hinv : (handle_pose_event behavior st e).2.1 = st.pose_callbacks := by
        unfold handle_pose_event
        exact dispatch_callbacks_fst behavior st.pose_callbacks e
      rw [hcbs, hinv, List.flatMap_cons, List.append_assoc]

lemma add_pose_callback_nodup {κ : Type} [DecidableEq κ] (callbacks : List κ)
    (cb : κ) (h : callbacks.Nodup) : (add_pose_callback callbacks cb).Nodup := by
  unfold add_pose_callback
  split
  · exact h
  · rename_i hnot
    simp [List.nodup_append, h, hnot]

lemma remove_pose_callback_nodup {κ : Type} [DecidableEq κ] (callbacks : List κ)
    (cb : κ) (h : callbacks.Nodup) : (remove_pose_callback callbacks cb).Nodup :=
  h.filter _

/-- C6: registering the same callback twice via `add_pose_callback` (the
second add being a no-op, dedup by identity) results in exactly one
invocation of the callback per delivered pose event. -/
theorem C6_callback_dedup {κ : Type} [DecidableEq κ] (callbacks : List κ)
    (cb : κ) (hnd : callbacks.Nodup) {ε : Type}
    (behavior : κ → TrackerPose → Except ε Unit) (pose : TrackerPose) :
    add_pose_callback (add_pose_callback callbacks cb) cb
      = add_pose_callback callbacks cb ∧
    (dispatch_callbacks behavior
        (add_pose_callback (add_pose_callback callbacks cb) cb) pose).1.count cb
      = 1 := by
  have hmem : cb ∈ add_pose_callback callbacks cb := by
    unfold add_pose_callback
    split
    · assumption
    · simp
  have hidem : add_pose_callback (add_pose_callback callbacks cb) cb
      = add_pose_callback callbacks cb := by
    rw [add_pose_callback, if_pos hmem]
  refine ⟨hidem, ?_⟩
  rw [hidem, dispatch_callbacks_fst]
  rw [add_pose_callback]
  split
  · rename_i hmem2
    exact List.count_eq_one_of_mem hnd hmem2
  · rename_i hnot
    rw [List.count_append, List.count_eq_zero_of_not_mem hnot]
    simp

/-- Witness for C6: callback `1` added twice on top of `[0]` is invoked
exactly once for the sample pose event. -/
theorem C6_witness :
    add_pose_callback (add_pose_callback [(0 : ℕ)] 1) 1
      = add_pose_callback [(0 : ℕ)] 1 ∧
    (dispatch_callbacks (fun _ _ => (Except.ok () : Except Unit Unit))
        (add_pose_callback (add_pose_callback [(0 : ℕ)] 1) 1) samplePose).1.count 1
      = 1 :=
  C6_callback_dedup [(0 : ℕ)] 1 (by decide)
    (fun _ _ => (Except.ok () : Except Unit Unit)) samplePose

/-- C7: for every callback list and every behaviour (including callbacks
that raise), delivering a stream of pose events invokes every registered
callback on every event, in order — an exception raised by one callback is
caught at the dispatch site and stops neither the remaining callbacks on
that event nor any callback on later events, and never propagates to the
poll loop (`process_events` is total). -/
theorem C7_callback_isolation {κ ε : Type}
    (behavior : κ → TrackerPose → Except ε Unit) (st : APIState κ)
    (events : List TrackerPose) :
    (process_events behavior st events).2
      = events.flatMap (fun e => st.pose_callbacks.map (fun cb => (cb, e))) := by
  unfold process_events
  rw [process_events_fold]
  simp

/-- C8 evidence: evaluated on the owning relay instance, the first `close`
succeeds and unlinks, while a second `close` raises `FileNotFoundError`
from `shm.unlink()` (the claimed idempotence fails); `close` on a
non-owning instance and a repeated `TrackerService.stop()` are no-ops, the
second `stop` releasing nothing further. -/
theorem C8_lifecycle_evaluation :
    buffer_close true SharedMemoryState.fresh = Except.ok ⟨false, false⟩ ∧
    buffer_close true ⟨false, false⟩ = Except.error PyError.fileNotFound ∧
    buffer_close false ⟨false, false⟩ = Except.ok ⟨false, false⟩ ∧
    service_stop ServiceLifecycle.fresh = Except.ok ⟨false, ⟨false, false⟩⟩ ∧
    service_stop ⟨false, ⟨false, false⟩⟩ = Except.ok ⟨false, ⟨false, false⟩⟩ :=
  ⟨rfl, rfl, rfl, rfl, rfl⟩

/-- C10: whenever `TrackerService.get_pose` returns no pose (out-of-range
index or never-written slot), the observability fields `last_pose_age_ms`
and `last_pose_sequence` — and the whole service state — are left
unchanged; they are updated only on a successful read. -/
theorem C10_observability_frame (s : TrackerServiceState) (i : ℤ) (now : ℚ)
    (h : read_pose s.buffer i = none) :
    (get_pose s i now).1 = none ∧ (get_pose s i now).2 = s := by
  unfold get_pose
  rw [h]
  exact ⟨rfl, rfl⟩

set_option maxRecDepth 4000 in
/-- Witness for C10: reading never-written slot 3 of a fresh service leaves
the state untouched. -/
theorem C10_witness :
    (get_pose ⟨SharedPoseBuffer.init, none, none⟩ 3 0).1 = none ∧
    (get_pose ⟨SharedPoseBuffer.init, none, none⟩ 3 0).2
      = ⟨SharedPoseBuffer.init, none, none⟩ :=
  C10_observability_frame ⟨SharedPoseBuffer.init, none, none⟩ 3 0 (by
    have hcond : ¬ ((3 : ℤ) < 0 ∨ (POSE_SLOTS : ℤ) ≤ 3) := by decide
    simp only [read_pose, dif_neg hcond]
    rw [if_pos (by norm_num [SharedPoseBuffer.init, Row.zero])])

end Pyvut
